import Mathlib

/-
Verification of the per-call voice-agent orchestrator:
a shallow embedding in Lean 4 of the audio chunker, sentence segmenter,
conversation manager, recognition adapter, and call-session event handlers,
with theorems settling the specified behavioural claims.

Python strings are modelled as Lean `String` / `List Char`; byte strings as
`List Nat`; 16-bit PCM sample sequences as `List Int`; dictionaries as
association lists; a Python function that can raise is modelled as returning
`Option` (with `none` for a raised exception) or as returning an explicit
"raised" flag.
-/

/-- Association-list lookup, modelling Python `d[k]` / `d.get(k)`. -/
def lookupA {α β : Type} [DecidableEq α] : List (α × β) → α → Option β
  | [], _ => none
  | (k', v) :: rest, k => if k' = k then some v else lookupA rest k

/-- Association-list update-or-insert, modelling Python `d[k] = v`
(insertion order of an existing key is preserved, as for `dict`). -/
def updateA {α β : Type} [DecidableEq α] : List (α × β) → α → β → List (α × β)
  | [], k, v => [(k, v)]
  | (k', v') :: rest, k, v =>
    if k' = k then (k, v) :: rest else (k', v') :: updateA rest k v

/-- Association-list removal, modelling Python `del d[k]` on a present key. -/
def removeA {α β : Type} [DecidableEq α] (m : List (α × β)) (k : α) : List (α × β) :=
  m.filter (fun p => p.1 ≠ k)

/-- Lookup in a `defaultdict(bool)`: a missing key reads as `false`. -/
def lookupD {α : Type} [DecidableEq α] (m : List (α × Bool)) (k : α) : Bool :=
  (lookupA m k).getD false

/-- Fuel-driven exact integer square root (floor), via `sqrt n = 2·sqrt (n/4)`
refined by one conditional increment; the fuel only bounds recursion depth. -/
def isqrtFuel : Nat → Nat → Nat
  | 0, _ => 0
  | fuel + 1, n =>
    if n = 0 then 0
    else
      let r := 2 * isqrtFuel fuel (n / 4)
      if (r + 1) * (r + 1) ≤ n then r + 1 else r

/-- Floor integer square root. -/
def isqrt (n : Nat) : Nat := isqrtFuel n n

/-- audioop.rms for width-2 samples: integer square root of the mean square. -/
def audioop_rms (pcm : List Int) : Nat :=
  if pcm.length = 0 then 0
  else isqrt ((pcm.map (fun s => (s * s).toNat)).sum / pcm.length)

/-! ## Framing / chunker (src/services/riva_tts_client.py, class AudioChunker) -/

/-- The `while len(self.buffer) >= self.chunk_size` extraction loop of
`AudioChunker.add_audio`, with explicit fuel bounding the number of
iterations (the loop runs at most `buffer.length` times when the chunk
size is positive).  Returns the emitted chunks and the leftover buffer. -/
def chunksOfFuel {α : Type} : Nat → Nat → List α → List (List α) × List α
  | 0, _, l => ([], l)
  | fuel + 1, cs, l =>
    if cs ≤ l.length then
      let r := chunksOfFuel fuel cs (l.drop cs)
      (l.take cs :: r.1, r.2)
    else ([], l)

/-- The list of full `cs`-element groups of `l`, dropping a trailing
partial group (the `.1` of the extraction loop run to completion). -/
def groupsOf {α : Type} (cs : Nat) (l : List α) : List (List α) :=
  (chunksOfFuel l.length cs l).1

/-- `AudioChunker`: fixed-size framing of a byte stream for transport.
The default `chunk_size` in the source is 160 bytes (20 ms at 8 kHz μ-law). -/
structure AudioChunker where
  chunk_size : Nat
  buffer : List Nat
deriving DecidableEq

/-- `AudioChunker.add_audio`: extend the internal buffer with `data` and
return every complete `chunk_size`-byte chunk, retaining the remainder. -/
def AudioChunker.add_audio (c : AudioChunker) (data : List Nat) : List (List Nat) × AudioChunker :=
  let buf := c.buffer ++ data
  let r := chunksOfFuel buf.length c.chunk_size buf
  (r.1, ⟨c.chunk_size, r.2⟩)

/-- `AudioChunker.get_remaining`: flush the buffer, zero-padding a non-empty
partial frame up to `chunk_size`; an empty buffer flushes to the empty
byte string with no padding. -/
def AudioChunker.get_remaining (c : AudioChunker) : List Nat × AudioChunker :=
  if c.buffer.isEmpty then ([], c)
  else
    (c.buffer ++ List.replicate (c.chunk_size - c.buffer.length) 0, ⟨c.chunk_size, []⟩)

/-- Feed a sequence of writes through `add_audio`, concatenating all
returned chunks in order. -/
def run_add_audio (c : AudioChunker) : List (List Nat) → List (List Nat) × AudioChunker
  | [] => ([], c)
  | w :: ws =>
    let r1 := c.add_audio w
    let r2 := run_add_audio r1.2 ws
    (r1.1 ++ r2.1, r2.2)

/-! ## Sentence segmenter (src/services/openai_client.py, class ResponseBuffer) -/

/-- A sentence-ending character, the class `[.!?]` of the source regex. -/
def isSentEnd (c : Char) : Bool := c = '.' || c = '!' || c = '?'

/-- A whitespace character, the class `\s` of the source regex
(ASCII whitespace as recognised by Python). -/
def isSpaceCh (c : Char) : Bool :=
  c = ' ' || c = '\t' || c = '\n' || c = '\r' || c = '\x0b' || c = '\x0c'

/-- Whether a `[.!?]\s+` match starts at the character `c` when `rest`
follows it. -/
def boundaryAt (c : Char) (rest : List Char) : Bool :=
  isSentEnd c && (match rest.head? with | some d => isSpaceCh d | none => false)

/-- `re.split` / leftmost-match scan for the pattern `[.!?]\s+`:
returns the parts between matches and the matched separators (each a
sentence-ending character followed by a maximal whitespace run).  The
accumulator holds the current part reversed; the fuel bounds the scan. -/
def reSplitSents : Nat → List Char → List Char → List (List Char) × List (List Char)
  | _, acc, [] => (acc.reverse :: [], [])
  | 0, acc, rest => ((acc.reverse ++ rest) :: [], [])
  | fuel + 1, acc, c :: rest =>
    if boundaryAt c rest then
      let ws := rest.takeWhile isSpaceCh
      let rest2 := rest.dropWhile isSpaceCh
      let r := reSplitSents fuel [] rest2
      (acc.reverse :: r.1, (c :: ws) :: r.2)
    else
      reSplitSents fuel (c :: acc) rest

/-- Split `text` at every `[.!?]\s+` match, as `re.split` does, also
returning the list of matched separators in order. -/
def sentence_split (text : List Char) : List (List Char) × List (List Char) :=
  reSplitSents text.length [] text

/-- `ResponseBuffer.add_chunk`: append a chunk to the buffer. -/
def add_chunk (buffer : List String) (chunk : String) : List String :=
  buffer ++ [chunk]

/-- `ResponseBuffer.get_complete_sentences`.  The source joins the buffer,
splits it at `[.!?]\s+`, and — when more than one part results — executes
`sentences.append(parts[i] + text[sentence_endings.search(text).group(0)])`,
which indexes the string `text` with a string and therefore raises
`TypeError` on the first loop iteration, before the buffer is reassigned.
A raised exception is modelled as `none`; with at most one part the call
returns no sentences and leaves the buffer unchanged. -/
def get_complete_sentences (buffer : List String) : Option (List String × List String) :=
  let text := String.join buffer
  let parts := (sentence_split text.data).1
  if parts.length > 1 then none
  else some ([], buffer)

/-- `ResponseBuffer.get_remaining`: the joined buffer contents. -/
def response_buffer_remaining (buffer : List String) : String :=
  String.join buffer

/-- Python `str.strip()` (whitespace stripped from both ends). -/
def pyStrip (s : String) : String :=
  ⟨((s.data.dropWhile isSpaceCh).reverse.dropWhile isSpaceCh).reverse⟩

/-! ## Conversation manager (src/services/openai_client.py, class ConversationManager) -/

/-- One role-tagged turn, modelling `{"role": ..., "content": ...}`. -/
structure Turn where
  role : String
  content : String
deriving DecidableEq

/-- The fixed system prompt of `ConversationManager.__init__`. -/
def system_prompt : String :=
  "You are a helpful AI assistant on a phone call. \n        Keep your responses concise and natural for voice conversation.\n        Be friendly, professional, and helpful.\n        Avoid using markdown, special characters, or formatting that doesn't work well with speech.\n        If you need to provide lists, speak them naturally.\n        Remember this is a phone conversation, so responses should be conversational."

/-- Python `l[-n:]`: the most recent `n` elements of `l` (all of `l` when
it is shorter than `n`). -/
def lastN {α : Type} (n : Nat) (l : List α) : List α :=
  l.drop (l.length - n)

/-- The message list built by `ConversationManager.get_response` after
appending the user turn: the system prompt followed by
`self.conversations[caller_id][-10:]`. -/
def get_response_messages (hist : List Turn) (text : String) : List Turn :=
  ⟨"system", system_prompt⟩ :: lastN 10 (hist ++ [⟨"user", text⟩])

/-- The apology chunk yielded by `ConversationManager.get_response` when the
generation call raises (openai_client.py lines 83-85). -/
def apology_generator : String :=
  "I apologize, but I'm having trouble processing that right now."

/-- The apology sentence synthesized by `VoiceAgent.process_with_ai` when the
response pipeline raises (main.py line 207). -/
def apology_pipeline : String :=
  "I apologize, but I'm having trouble processing that."

/-- `ConversationManager.clear_conversation`: delete a caller's history if
present (`if caller_id in self.conversations: del ...`). -/
def clear_conversation (convs : List (String × List Turn)) (caller : String) :
    List (String × List Turn) :=
  if (lookupA convs caller).isSome then removeA convs caller else convs

/-! ## Recognition stream adapter (src/services/riva_asr_client.py, RivaASRClient) -/

/-- A recognition result dict `{'transcript', 'is_final', 'confidence'}`. -/
structure RecogResult where
  transcript : String
  is_final : Bool
  confidence : Nat
deriving DecidableEq

/-- The placeholder result yielded by the stubbed `streaming_recognize`. -/
def placeholder_result : RecogResult :=
  { transcript := "[Processing audio...]", is_final := false, confidence := 0 }

/-- `RivaASRClient.resample_audio`: `audioop.ratecv(audio, 2, 1, from, to)`
with the source defaults 8000 → 16000.  The rate converter itself is a
parameter `ratecv` (its numeric kernel is external C code); the adapter is
verified for every converter. -/
def resample_audio (ratecv : Nat → Nat → List Int → List Int) (audio : List Int) : List Int :=
  ratecv 8000 16000 audio

/-- The accumulation loop of `streaming_recognize`: each chunk is resampled
and appended to `audio_buffer`; once `len(audio_buffer) >= 50` the joined
buffer is computed and one placeholder result is yielded, and the buffer is
reset.  Each emission is paired with the `combined_audio` value computed at
that point. -/
def srLoop (resample : List Int → List Int) :
    List (List Int) → List (List Int) → List (RecogResult × List Int)
  | _, [] => []
  | buf, c :: cs =>
    let buf1 := buf ++ [resample c]
    if 50 ≤ buf1.length then
      (placeholder_result, buf1.flatten) :: srLoop resample [] cs
    else
      srLoop resample buf1 cs

/-- The same loop wrapped in the `try/except` of `streaming_recognize`: an
exception raised while processing the chunk at index `errAt` is caught and
the output sequence simply ends (no result is re-raised to the consumer). -/
def srLoopE (resample : List Int → List Int) :
    List (List Int) → List (List Int) → Option Nat → List (RecogResult × List Int)
  | _, [], _ => []
  | buf, c :: cs, errAt =>
    if errAt = some 0 then []
    else
      let errAt1 := match errAt with | some (k + 1) => some k | x => x
      let buf1 := buf ++ [resample c]
      if 50 ≤ buf1.length then
        (placeholder_result, buf1.flatten) :: srLoopE resample [] cs errAt1
      else
        srLoopE resample buf1 cs errAt1

/-- `RivaASRClient.streaming_recognize` over a finite inbound chunk stream,
with `errAt` the index of the chunk whose processing raises (if any). -/
def streaming_recognize (ratecv : Nat → Nat → List Int → List Int)
    (stream : List (List Int)) (errAt : Option Nat) : List (RecogResult × List Int) :=
  srLoopE (resample_audio ratecv) [] stream errAt

/-! ## Call session orchestrator (src/main.py, class VoiceAgent) -/

/-- The observable part of an `AudioProcessor`: its `is_processing` flag and
the queue of PCM chunks pushed by `add_audio`. -/
structure AudioProcessorM where
  is_processing : Bool
  queue : List (List Int)
deriving DecidableEq

/-- The per-connection registries of `VoiceAgent` plus the conversation
store of its `ConversationManager`.  Connection handles are `Nat`;
`is_speaking` and `last_transcript` are `defaultdict`s, the rest plain
dicts. -/
structure AgentState where
  connections : List (Nat × String)
  audio_buffers : List (Nat × List Nat)
  stream_sids : List (Nat × String)
  call_sids : List (Nat × String)
  caller_numbers : List (Nat × String)
  audio_processors : List (Nat × AudioProcessorM)
  output_managers : List (Nat × Bool)
  audio_chunkers : List (Nat × AudioChunker)
  response_buffers : List (Nat × List String)
  is_speaking : List (Nat × Bool)
  last_transcript : List (Nat × String)
  conversations : List (String × List Turn)
deriving DecidableEq

/-- Outbound transport messages: per-frame `media` payloads and the
protocol's `clear` message (which this code base never constructs). -/
inductive OutMsg where
  | media (streamSid : String) (payload : List Nat)
  | clear (streamSid : String)
deriving DecidableEq

/-- `AudioProcessor.add_audio` called from `handle_media`: enqueue the
decoded PCM chunk. -/
def pushAudioQueue (st : AgentState) (cid : Nat) (pcm : List Int) : AgentState :=
  match lookupA st.audio_processors cid with
  | some p =>
    { st with audio_processors := updateA st.audio_processors cid ⟨p.is_processing, p.queue ++ [pcm]⟩ }
  | none => st

/-- `VoiceAgent.handle_media`, taking the already-decoded linear PCM of the
base64 μ-law payload (`none` / empty models a falsy payload).  While
speaking, PCM whose `audioop.rms` exceeds 500 triggers
`output_managers[cid].interrupt()` (is_playing := false) and clears the
speaking flag; the chunk is then enqueued for recognition.  The returned
list is every message sent to the transport (there are none), and the
`Bool` is true when the handler raises (a `KeyError` on a missing output
manager, caught by `process_message`). -/
def handle_media (st : AgentState) (cid : Nat) (payload : Option (List Int)) :
    AgentState × List OutMsg × Bool :=
  match payload with
  | none => (st, [], false)
  | some pcm =>
    if pcm.isEmpty then (st, [], false)
    else if (lookupA st.audio_processors cid).isSome then
      if lookupD st.is_speaking cid then
        if 500 < audioop_rms pcm then
          match lookupA st.output_managers cid with
          | none => (st, [], true)
          | some _ =>
            let st1 := { st with
              output_managers := updateA st.output_managers cid false,
              is_speaking := updateA st.is_speaking cid false }
            (pushAudioQueue st1 cid pcm, [], false)
        else (pushAudioQueue st cid pcm, [], false)
      else (pushAudioQueue st cid pcm, [], false)
    else (st, [], false)

/-- Decrement a scheduled event index as one loop iteration passes. -/
def tickDown : Option Nat → Option Nat
  | some (n + 1) => some n
  | x => x

/-- Result of the send loop of `synthesize_and_send`. -/
structure LoopOut where
  st : AgentState
  ch : AudioChunker
  msgs : List OutMsg
  raised : Bool

/-- The `async for audio_chunk in output_manager.synthesize_and_queue(text)`
loop of `synthesize_and_send`: before each iteration's speaking check an
inbound media event may be processed (`evts`, delivered at the awaits);
if the speaking flag is clear the loop breaks; otherwise the chunk goes
through the chunker and each complete frame is sent as a `media` message.
`raiseAt = some k` models `websocket.send` raising at iteration `k`. -/
def synth_loop (cid : Nat) (sid : String) :
    AgentState → AudioChunker → List (List Nat) → List (Option (List Int)) → Option Nat →
    LoopOut
  | st, ch, [], _, _ => ⟨st, ch, [], false⟩
  | st, ch, a :: as, evts, raiseAt =>
    let st1 := match evts.head? with
      | some (some pcm) => (handle_media st cid (some pcm)).1
      | _ => st
    if lookupD st1.is_speaking cid = false then ⟨st1, ch, [], false⟩
    else
      let r := ch.add_audio a
      if raiseAt = some 0 then ⟨st1, r.2, [], true⟩
      else
        let rest := synth_loop cid sid st1 r.2 as evts.tail (tickDown raiseAt)
        ⟨rest.st, rest.ch, r.1.map (OutMsg.media sid) ++ rest.msgs, rest.raised⟩

/-- The post-loop flush of `synthesize_and_send`: `chunker.get_remaining()`
is sent as one final `media` message when non-empty. -/
def flush_remaining (sid : String) (ch : AudioChunker) : List OutMsg × AudioChunker :=
  let r := ch.get_remaining
  (if r.1.isEmpty then [] else [OutMsg.media sid r.1], r.2)

/-- Write back the (aliased) chunker and reset the speaking flag, as the
`finally` block of `synthesize_and_send` does. -/
def finishSend (cid : Nat) (st : AgentState) (ch : AudioChunker) : AgentState :=
  { st with audio_chunkers := updateA st.audio_chunkers cid ch,
            is_speaking := updateA st.is_speaking cid false }

/-- `VoiceAgent.synthesize_and_send`: `audio` is the μ-law chunk stream the
output manager produces for `text`; `evts` and `raiseAt` schedule inbound
media events and a send failure inside the loop.  `none` models a
`KeyError` raised by the pre-`try` registry lookups escaping to the
caller; an unregistered connection returns immediately.  On a body
exception the flush is skipped; the `finally` always clears the speaking
flag. -/
def synthesize_and_send (cid : Nat) (st : AgentState) (_text : String)
    (audio : List (List Nat)) (evts : List (Option (List Int))) (raiseAt : Option Nat) :
    Option (AgentState × List OutMsg) :=
  match lookupA st.connections cid with
  | none => some (st, [])
  | some _ =>
    match lookupA st.stream_sids cid, lookupA st.output_managers cid,
          lookupA st.audio_chunkers cid with
    | some sid, some _, some ch =>
      let st1 := { st with is_speaking := updateA st.is_speaking cid true }
      let lo := synth_loop cid sid st1 ch audio evts raiseAt
      if lo.raised then
        some (finishSend cid lo.st lo.ch, lo.msgs)
      else
        let fl := flush_remaining sid lo.ch
        some (finishSend cid lo.st fl.2, lo.msgs ++ fl.1)
    | _, _, _ => none

/-! ## Response pipeline (VoiceAgent.process_with_ai and the ASR callback) -/

/-- Observable steps of the response pipeline: clearing the pending-response
buffer, beginning a generation request, and synthesizing an utterance. -/
inductive AiAction where
  | cleared
  | genCall (transcript : String) (caller : String)
  | synth (text : String)
deriving DecidableEq

/-- The texts synthesized in an action trace. -/
def synthTexts (acts : List AiAction) : List String :=
  acts.filterMap (fun a => match a with | AiAction.synth s => some s | _ => none)

/-- The `async for chunk in ...` loop of `process_with_ai`: each chunk is
added to the response buffer and `get_complete_sentences` is called; its
returned sentences are synthesized.  Returns (sentences synthesized,
final buffer contents, whether `get_complete_sentences` raised). -/
def pipeChunks : List String → List String → List String × List String × Bool
  | buf, [] => ([], buf, false)
  | buf, c :: cs =>
    let buf1 := add_chunk buf c
    match get_complete_sentences buf1 with
    | none => ([], buf1, true)
    | some r =>
      let rest := pipeChunks r.2 cs
      (r.1 ++ rest.1, rest.2.1, rest.2.2)

/-- `VoiceAgent.process_with_ai`.  `produced` is the token stream the
generation API yields before succeeding or failing; `apiErr` says whether
the API call raises, in which case `get_response` catches it and yields
`apology_generator` instead (and skips the assistant-turn append).  A
raised `TypeError` from the sentence segmenter is caught by the
surrounding `except`, which synthesizes `apology_pipeline`.  `none`
models the unguarded `response_buffers[cid]` lookup raising. -/
def process_with_ai (st : AgentState) (cid : Nat) (transcript : String)
    (produced : List String) (apiErr : Bool) : Option (AgentState × List AiAction) :=
  match lookupA st.connections cid with
  | none => some (st, [])
  | some _ =>
    let caller := (lookupA st.caller_numbers cid).getD "unknown"
    match lookupA st.response_buffers cid with
    | none => none
    | some _ =>
      let st1 := { st with response_buffers := updateA st.response_buffers cid [] }
      let hist1 := (lookupA st1.conversations caller).getD [] ++ [⟨"user", transcript⟩]
      let st2 := { st1 with conversations := updateA st1.conversations caller hist1 }
      let chunks := produced ++ (if apiErr then [apology_generator] else [])
      let pc := pipeChunks [] chunks
      let st3 := { st2 with response_buffers := updateA st2.response_buffers cid pc.2.1 }
      let headActs := [AiAction.cleared, AiAction.genCall transcript caller]
      if pc.2.2 then
        some (st3, headActs ++ pc.1.map AiAction.synth ++ [AiAction.synth apology_pipeline])
      else
        let hist2 := hist1 ++ [⟨"assistant", String.join chunks⟩]
        let st4 :=
          if apiErr then st3
          else { st3 with conversations := updateA st3.conversations caller hist2 }
        let remaining := String.join pc.2.1
        let tailActs := if pyStrip remaining ≠ "" then [AiAction.synth remaining] else []
        some (st4, headActs ++ pc.1.map AiAction.synth ++ tailActs)

/-- The `handle_transcript` callback installed by `start_asr_processing`:
a result is acted upon only when `is_final` and non-blank after
stripping; it is stored in `last_transcript` and passed to
`process_with_ai`. -/
def handle_transcript (st : AgentState) (cid : Nat) (res : RecogResult)
    (produced : List String) (apiErr : Bool) : Option (AgentState × List AiAction) :=
  if res.is_final ∧ pyStrip res.transcript ≠ "" then
    let st1 := { st with last_transcript := updateA st.last_transcript cid res.transcript }
    process_with_ai st1 cid res.transcript produced apiErr
  else some (st, [])

/-! ## Teardown (VoiceAgent.cleanup_connection) -/

/-- A strict `del d[k]`: `none` (a `KeyError`) when the key is missing. -/
def delStrict {α β : Type} [DecidableEq α] (m : List (α × β)) (k : α) :
    Option (List (α × β)) :=
  if (lookupA m k).isSome then some (removeA m k) else none

/-- The guarded deletion idiom `if k in d: del d[k]`. -/
def delGuard {α β : Type} [DecidableEq α] (m : List (α × β)) (k : α) :
    Option (List (α × β)) :=
  if (lookupA m k).isSome then delStrict m k else some m

/-- `VoiceAgent.cleanup_connection` with every raise point explicit:
stop and delete the audio processor if present; clear the caller's
conversation history when `caller_numbers.get(cid)` is truthy; then
delete the connection from each registry when present. -/
def cleanup_connection (cid : Nat) (st : AgentState) : Option AgentState := do
  let aps ← match lookupA st.audio_processors cid with
    | some p => delStrict (updateA st.audio_processors cid ⟨false, p.queue⟩) cid
    | none => pure st.audio_processors
  let convs ← match lookupA st.caller_numbers cid with
    | some caller =>
      if caller ≠ "" then
        (if (lookupA st.conversations caller).isSome then delStrict st.conversations caller
         else pure st.conversations)
      else pure st.conversations
    | none => pure st.conversations
  let conns ← delGuard st.connections cid
  let abufs ← delGuard st.audio_buffers cid
  let ssids ← delGuard st.stream_sids cid
  let csids ← delGuard st.call_sids cid
  let cnums ← delGuard st.caller_numbers cid
  let omgrs ← delGuard st.output_managers cid
  let chnks ← delGuard st.audio_chunkers cid
  let rbufs ← delGuard st.response_buffers cid
  let spk ← delGuard st.is_speaking cid
  let ltr ← delGuard st.last_transcript cid
  pure { connections := conns, audio_buffers := abufs, stream_sids := ssids,
         call_sids := csids, caller_numbers := cnums, audio_processors := aps,
         output_managers := omgrs, audio_chunkers := chnks, response_buffers := rbufs,
         is_speaking := spk, last_transcript := ltr, conversations := convs }

/-- The total companion of `cleanup_connection` (every deletion guard in the
source succeeds, so the two agree — see `cleanup_connection_eq`). -/
def cleanupF (cid : Nat) (st : AgentState) : AgentState :=
  { connections := removeA st.connections cid,
    audio_buffers := removeA st.audio_buffers cid,
    stream_sids := removeA st.stream_sids cid,
    call_sids := removeA st.call_sids cid,
    caller_numbers := removeA st.caller_numbers cid,
    audio_processors := match lookupA st.audio_processors cid with
      | some p => removeA (updateA st.audio_processors cid ⟨false, p.queue⟩) cid
      | none => st.audio_processors,
    output_managers := removeA st.output_managers cid,
    audio_chunkers := removeA st.audio_chunkers cid,
    response_buffers := removeA st.response_buffers cid,
    is_speaking := removeA st.is_speaking cid,
    last_transcript := removeA st.last_transcript cid,
    conversations := match lookupA st.caller_numbers cid with
      | some caller => if caller ≠ "" then clear_conversation st.conversations caller
                       else st.conversations
      | none => st.conversations }

/-- `n` sequential invocations of the cleanup path, propagating a raise. -/
def cleanupN (cid : Nat) : Nat → AgentState → Option AgentState
  | 0, st => some st
  | n + 1, st => (cleanup_connection cid st).bind (cleanupN cid n)

/-- A concrete agent state with two live connections (1 and 2) sharing the
caller identity "A", used to instantiate the teardown theorems. -/
def sampleState : AgentState :=
  { connections := [(1, "conn1"), (2, "conn2")],
    audio_buffers := [(1, [0])],
    stream_sids := [(1, "SID1"), (2, "SID2")],
    call_sids := [(1, "CA1")],
    caller_numbers := [(1, "A"), (2, "A")],
    audio_processors := [(1, ⟨true, []⟩)],
    output_managers := [(1, true)],
    audio_chunkers := [(1, ⟨160, [7]⟩)],
    response_buffers := [(1, ["x"])],
    is_speaking := [(1, true)],
    last_transcript := [(1, "hi")],
    conversations := [("A", [⟨"user", "hi"⟩]), ("B", [⟨"user", "yo"⟩])] }

/-- `sampleState` with connection 1 removed from the registry while its
speaking flag is still set — the configuration reached when an event
arrives for a connection after teardown began elsewhere. -/
def orphanState : AgentState :=
  { sampleState with connections := [(2, "conn2")] }

/-! # Association-list lemmas -/

theorem lookupA_updateA_self {α β : Type} [DecidableEq α] (m : List (α × β)) (k : α) (v : β) :
    lookupA (updateA m k v) k = some v := by
  induction m with
  | nil => simp [updateA, lookupA]
  | cons p rest ih =>
    obtain ⟨k', v'⟩ := p
    by_cases h : k' = k
    · subst h; simp [updateA, lookupA]
    · simp [updateA, lookupA, h, ih]

theorem lookupA_updateA_ne {α β : Type} [DecidableEq α] (m : List (α × β)) (k k' : α) (v : β)
    (h : k' ≠ k) : lookupA (updateA m k v) k' = lookupA m k' := by
  have hne : ¬ k = k' := fun hh => h hh.symm
  induction m with
  | nil => simp [updateA, lookupA, hne]
  | cons p rest ih =>
    obtain ⟨k'', v''⟩ := p
    by_cases hk : k'' = k
    · subst hk
      simp only [updateA, if_pos rfl, lookupA]
      rw [if_neg hne, if_neg hne]
    · simp only [updateA, if_neg hk, lookupA]
      by_cases hk2 : k'' = k'
      · rw [if_pos hk2, if_pos hk2]
      · rw [if_neg hk2, if_neg hk2, ih]

theorem removeA_cons_self {α β : Type} [DecidableEq α] (k : α) (v : β) (rest : List (α × β)) :
    removeA ((k, v) :: rest) k = removeA rest k := by
  simp [removeA, List.filter_cons]

theorem removeA_cons_ne {α β : Type} [DecidableEq α] {k k' : α} (v : β) (rest : List (α × β))
    (h : k' ≠ k) : removeA ((k', v) :: rest) k = (k', v) :: removeA rest k := by
  simp [removeA, List.filter_cons, h]

theorem lookupA_removeA_self {α β : Type} [DecidableEq α] (m : List (α × β)) (k : α) :
    lookupA (removeA m k) k = none := by
  induction m with
  | nil => rfl
  | cons p rest ih =>
    obtain ⟨k', v'⟩ := p
    by_cases h : k' = k
    · subst h
      rw [removeA_cons_self]
      exact ih
    · rw [removeA_cons_ne v' rest h]
      simp only [lookupA, if_neg h]
      exact ih

theorem lookupA_removeA_ne {α β : Type} [DecidableEq α] (m : List (α × β)) (k k' : α)
    (h : k' ≠ k) : lookupA (removeA m k) k' = lookupA m k' := by
  have hne : ¬ k = k' := fun hh => h hh.symm
  induction m with
  | nil => rfl
  | cons p rest ih =>
    obtain ⟨k'', v''⟩ := p
    by_cases hk : k'' = k
    · subst hk
      rw [removeA_cons_self, ih]
      simp only [lookupA, if_neg hne]
    · rw [removeA_cons_ne v'' rest hk]
      simp only [lookupA]
      by_cases hk2 : k'' = k'
      · rw [if_pos hk2, if_pos hk2]
      · rw [if_neg hk2, if_neg hk2, ih]

theorem removeA_updateA_self {α β : Type} [DecidableEq α] (m : List (α × β)) (k : α) (v : β) :
    removeA (updateA m k v) k = removeA m k := by
  induction m with
  | nil => simp [updateA, removeA, List.filter]
  | cons p rest ih =>
    obtain ⟨k', v'⟩ := p
    by_cases h : k' = k
    · subst h
      simp [updateA, removeA_cons_self]
    · simp only [updateA, if_neg h, removeA_cons_ne v' _ h,
        removeA_cons_ne v' (updateA rest k v) h]
      rw [ih]

theorem removeA_removeA {α β : Type} [DecidableEq α] (m : List (α × β)) (k : α) :
    removeA (removeA m k) k = removeA m k := by
  unfold removeA
  rw [List.filter_filter]
  simp

/-! # Chunker lemmas -/

theorem chunksOfFuel_congr {α : Type} {cs : Nat} (h : 0 < cs) :
    ∀ (f1 f2 : Nat) (l : List α), l.length ≤ f1 → l.length ≤ f2 →
      chunksOfFuel f1 cs l = chunksOfFuel f2 cs l := by
  intro f1
  induction f1 with
  | zero =>
    intro f2 l h1 _h2
    have hl : l = [] := List.length_eq_zero.mp (Nat.le_zero.mp h1)
    subst hl
    cases f2 with
    | zero => rfl
    | succ f2 => simp [chunksOfFuel, Nat.not_le.mpr h]
  | succ f1 ih =>
    intro f2 l h1 h2
    cases f2 with
    | zero =>
      have hl : l = [] := List.length_eq_zero.mp (Nat.le_zero.mp h2)
      subst hl
      simp [chunksOfFuel, Nat.not_le.mpr h]
    | succ f2 =>
      by_cases hg : cs ≤ l.length
      · simp only [chunksOfFuel, if_pos hg]
        have hd1 : (l.drop cs).length ≤ f1 := by rw [List.length_drop]; omega
        have hd2 : (l.drop cs).length ≤ f2 := by rw [List.length_drop]; omega
        rw [ih f2 (l.drop cs) hd1 hd2]
      · simp only [chunksOfFuel, if_neg hg]

theorem chunksOfFuel_spec {α : Type} {cs : Nat} (h : 0 < cs) :
    ∀ (fuel : Nat) (l : List α), l.length ≤ fuel →
      (chunksOfFuel fuel cs l).1.flatten ++ (chunksOfFuel fuel cs l).2 = l ∧
      (∀ g ∈ (chunksOfFuel fuel cs l).1, g.length = cs) ∧
      (chunksOfFuel fuel cs l).2.length < cs := by
  intro fuel
  induction fuel with
  | zero =>
    intro l h1
    have hl : l = [] := List.length_eq_zero.mp (Nat.le_zero.mp h1)
    subst hl
    simp [chunksOfFuel, h]
  | succ fuel ih =>
    intro l h1
    by_cases hg : cs ≤ l.length
    · simp only [chunksOfFuel, if_pos hg]
      have hd : (l.drop cs).length ≤ fuel := by rw [List.length_drop]; omega
      obtain ⟨e1, e2, e3⟩ := ih (l.drop cs) hd
      refine ⟨?_, ?_, e3⟩
      · simp only [List.flatten_cons, List.append_assoc, e1]
        exact List.take_append_drop cs l
      · intro g hgmem
        rcases List.mem_cons.mp hgmem with hEq | hMem
        · subst hEq
          rw [List.length_take]
          omega
        · exact e2 g hMem
    · simp only [chunksOfFuel, if_neg hg]
      exact ⟨by simp, by simp, Nat.not_le.mp hg⟩

theorem chunksOfFuel_short {α : Type} {cs fuel : Nat} {l : List α} (h : l.length < cs) :
    chunksOfFuel fuel cs l = ([], l) := by
  cases fuel with
  | zero => rfl
  | succ fuel => simp [chunksOfFuel, Nat.not_le.mpr h]

theorem groupsOf_short {α : Type} {cs : Nat} {l : List α} (h : l.length < cs) :
    groupsOf cs l = [] := by
  unfold groupsOf
  rw [chunksOfFuel_short h]

theorem groupsOf_cons {α : Type} {cs : Nat} (h : 0 < cs) (g rest : List α)
    (hg : g.length = cs) : groupsOf cs (g ++ rest) = g :: groupsOf cs rest := by
  unfold groupsOf
  have hc : chunksOfFuel (g ++ rest).length cs (g ++ rest)
      = chunksOfFuel (cs - 1 + rest.length + 1) cs (g ++ rest) :=
    chunksOfFuel_congr h _ _ _ le_rfl (by simp [hg]; omega)
  rw [hc]
  simp only [chunksOfFuel]
  have hguard : cs ≤ (g ++ rest).length := by simp [hg]
  rw [if_pos hguard]
  have ht : (g ++ rest).take cs = g := by rw [← hg]; exact List.take_left g rest
  have hd : (g ++ rest).drop cs = rest := by rw [← hg]; exact List.drop_left g rest
  rw [ht, hd]
  have hrec : chunksOfFuel (cs - 1 + rest.length) cs rest = chunksOfFuel rest.length cs rest :=
    chunksOfFuel_congr h _ _ _ (by omega) le_rfl
  rw [hrec]

theorem add_audio_spec (c : AudioChunker) (h : 0 < c.chunk_size) (data : List Nat) :
    (c.add_audio data).1.flatten ++ (c.add_audio data).2.buffer = c.buffer ++ data ∧
    (∀ g ∈ (c.add_audio data).1, g.length = c.chunk_size) ∧
    (c.add_audio data).2.buffer.length < c.chunk_size ∧
    (c.add_audio data).2.chunk_size = c.chunk_size := by
  obtain ⟨e1, e2, e3⟩ :=
    chunksOfFuel_spec h (c.buffer ++ data).length (c.buffer ++ data) le_rfl
  exact ⟨e1, e2, e3, rfl⟩

theorem get_remaining_spec (c : AudioChunker) (hb : c.buffer.length < c.chunk_size) :
    (c.get_remaining.1 = [] ∨ c.get_remaining.1.length = c.chunk_size) ∧
    ∃ k, c.get_remaining.1 = c.buffer ++ List.replicate k 0 := by
  unfold AudioChunker.get_remaining
  by_cases hE : c.buffer.isEmpty
  · rw [if_pos hE]
    exact ⟨Or.inl rfl, ⟨0, by simp [List.isEmpty_iff.mp hE]⟩⟩
  · rw [if_neg hE]
    refine ⟨Or.inr ?_, ⟨c.chunk_size - c.buffer.length, rfl⟩⟩
    simp only [List.length_append, List.length_replicate]
    omega

theorem run_add_audio_inv (cs : Nat) (h : 0 < cs) :
    ∀ (writes : List (List Nat)) (c : AudioChunker), c.chunk_size = cs →
      c.buffer.length < cs →
      (run_add_audio c writes).2.chunk_size = cs ∧
      (run_add_audio c writes).1.flatten ++ (run_add_audio c writes).2.buffer
        = c.buffer ++ writes.flatten ∧
      (∀ g ∈ (run_add_audio c writes).1, g.length = cs) ∧
      (run_add_audio c writes).2.buffer.length < cs := by
  intro writes
  induction writes with
  | nil =>
    intro c h1 h2
    simp only [run_add_audio]
    exact ⟨h1, by simp, by simp, h2⟩
  | cons w ws ih =>
    intro c h1 h2
    have hpos : 0 < c.chunk_size := h1 ▸ h
    obtain ⟨a1, a2, a3, a4⟩ := add_audio_spec c hpos w
    obtain ⟨i1, i2, i3, i4⟩ := ih (c.add_audio w).2 (a4.trans h1) (h1 ▸ a3)
    simp only [run_add_audio]
    refine ⟨i1, ?_, ?_, i4⟩
    · rw [List.flatten_append, List.append_assoc, i2, ← List.append_assoc, a1,
        List.flatten_cons, List.append_assoc]
    · intro g hgmem
      rcases List.mem_append.mp hgmem with hMem | hMem
      · exact h1 ▸ a2 g hMem
      · exact i3 g hMem

/-! # Claim C2: framing/chunker round-trip and fixed frame size -/

/-- **C2**: for every sequence of byte-string writes, every chunk returned by
`add_audio` has length exactly `chunk_size`; the concatenation of those
chunks is a prefix of the concatenated input (so they contain no padding);
together with the final `get_remaining` flush the output equals the input
padded with zeros only at the end; and the flushed frame is either absent
or exactly one full frame. -/
theorem audio_chunker_roundtrip (cs : Nat) (hcs : 0 < cs) (writes : List (List Nat)) :
    (∀ g ∈ (run_add_audio ⟨cs, []⟩ writes).1, g.length = cs) ∧
    ((run_add_audio ⟨cs, []⟩ writes).1.flatten <+: writes.flatten) ∧
    (∃ k, (run_add_audio ⟨cs, []⟩ writes).1.flatten
            ++ ((run_add_audio ⟨cs, []⟩ writes).2.get_remaining).1
          = writes.flatten ++ List.replicate k 0) ∧
    (((run_add_audio ⟨cs, []⟩ writes).2.get_remaining).1 = [] ∨
     ((run_add_audio ⟨cs, []⟩ writes).2.get_remaining).1.length = cs) := by
  obtain ⟨i1, i2, i3, i4⟩ :=
    run_add_audio_inv cs hcs writes ⟨cs, []⟩ rfl (by simpa using hcs)
  obtain ⟨g1, g2⟩ := get_remaining_spec (run_add_audio ⟨cs, []⟩ writes).2 (by rw [i1]; exact i4)
  obtain ⟨k, hk⟩ := g2
  refine ⟨i3, ⟨(run_add_audio ⟨cs, []⟩ writes).2.buffer, by simpa using i2⟩, ⟨k, ?_⟩, ?_⟩
  · rw [hk, ← List.append_assoc, i2]
    simp
  · rcases g1 with hh | hh
    · exact Or.inl hh
    · exact Or.inr (by rw [hh, i1])

/-! # Claim C1: sentence segmenter exactly-once round-trip -/

/-- **C1** (code bug): on the very first increment containing a complete
sentence — here the single chunk "Hello. World" — `get_complete_sentences`
raises `TypeError` (`text[...]` indexed with the matched separator string),
modelled as `none`.  The segmenter therefore crashes whenever a sentence
boundary `[.!?]\s+` is present, so the claimed exactly-once round-trip of
sentences plus remainder cannot hold on any stream that ever completes a
sentence. -/
theorem segmenter_crashes_on_complete_sentence :
    get_complete_sentences (add_chunk [] "Hello. World") = none := by decide

/-! # Claim C4: bounded conversation context -/

/-- **C4**: the message list sent to the generator is the fixed system
prompt followed by at most the 10 most recent role-tagged turns (a suffix
of the full history extended with the new user turn), for every history
length. -/
theorem conversation_context_bounded (hist : List Turn) (text : String) :
    (get_response_messages hist text).length ≤ 11 ∧
    (get_response_messages hist text).head? = some ⟨"system", system_prompt⟩ ∧
    (get_response_messages hist text).tail.length ≤ 10 ∧
    (get_response_messages hist text).tail <:+ (hist ++ [⟨"user", text⟩]) := by
  refine ⟨?_, rfl, ?_, ?_⟩
  · unfold get_response_messages lastN
    simp only [List.length_cons, List.length_drop]
    omega
  · unfold get_response_messages lastN
    simp only [List.tail_cons, List.length_drop]
    omega
  · unfold get_response_messages lastN
    simp only [List.tail_cons]
    exact List.drop_suffix _ _

/-! # Claim C9: recognition adapter batching with prior resampling -/

theorem srLoopE_none (resample : List Int → List Int) :
    ∀ (cs : List (List Int)) (buf : List (List Int)),
      srLoopE resample buf cs none = srLoop resample buf cs := by
  intro cs
  induction cs with
  | nil => intro buf; rfl
  | cons c cs' ih =>
    intro buf
    simp only [srLoopE, srLoop]
    by_cases hg : 50 ≤ (buf ++ [resample c]).length
    · simp only [if_pos hg, ih]
      simp
    · simp only [if_neg hg, ih]
      simp [hg]

theorem srLoopE_err (resample : List Int → List Int) :
    ∀ (cs : List (List Int)) (buf : List (List Int)) (i : Nat),
      srLoopE resample buf cs (some i) = srLoop resample buf (cs.take i) := by
  intro cs
  induction cs with
  | nil => intro buf i; simp [srLoopE, srLoop, List.take_nil]
  | cons c cs' ih =>
    intro buf i
    cases i with
    | zero => simp [srLoopE, srLoop]
    | succ i' =>
      have hne : (some (i' + 1) : Option Nat) ≠ some 0 := by simp
      simp only [srLoopE, List.take_succ_cons, srLoop, if_neg hne]
      by_cases hg : 50 ≤ (buf ++ [resample c]).length
      · simp only [if_pos hg, ih]
      · simp only [if_neg hg, ih]

theorem srLoop_groups (resample : List Int → List Int) :
    ∀ (cs : List (List Int)) (buf : List (List Int)), buf.length < 50 →
      srLoop resample buf cs
        = (groupsOf 50 (buf ++ cs.map resample)).map
            (fun g => (placeholder_result, g.flatten)) := by
  intro cs
  induction cs with
  | nil =>
    intro buf h
    simp only [srLoop, List.map_nil, List.append_nil]
    rw [groupsOf_short h]
    rfl
  | cons c cs' ih =>
    intro buf h
    have hsplit : buf ++ (c :: cs').map resample = (buf ++ [resample c]) ++ cs'.map resample := by
      simp [List.map_cons]
    simp only [srLoop]
    by_cases hg : 50 ≤ (buf ++ [resample c]).length
    · rw [if_pos hg]
      have hlen : (buf ++ [resample c]).length = buf.length + 1 := by simp
      have h50 : (buf ++ [resample c]).length = 50 := by omega
      rw [hsplit, groupsOf_cons (by norm_num) _ _ h50, List.map_cons,
        ih [] (by norm_num)]
      simp
    · rw [if_neg hg]
      rw [hsplit, ih (buf ++ [resample c]) (by simpa using Nat.lt_of_not_le hg)]

/-- **C9**: `streaming_recognize` resamples every inbound chunk (via
`resample_audio`, i.e. `ratecv 8000 16000`) before buffering it, and emits
exactly one (placeholder, non-final) result per 50 accumulated chunks —
its emission sequence equals the complete 50-groups of the resampled
stream, each paired with the combined audio of exactly those 50 resampled
chunks — so a result is emitted only once at least 50 chunks (≈1 s at
20 ms) have accumulated since the previous emission; and an exception
while processing chunk `i` merely truncates the stream to its first `i`
chunks instead of propagating to the consumer. -/
theorem asr_batching_with_resampling (ratecv : Nat → Nat → List Int → List Int)
    (stream : List (List Int)) (i : Nat) :
    streaming_recognize ratecv stream none
      = (groupsOf 50 (stream.map (resample_audio ratecv))).map
          (fun g => (placeholder_result, g.flatten)) ∧
    streaming_recognize ratecv stream (some i)
      = streaming_recognize ratecv (stream.take i) none := by
  constructor
  · unfold streaming_recognize
    rw [srLoopE_none, srLoop_groups (resample_audio ratecv) stream [] (by norm_num)]
    simp
  · unfold streaming_recognize
    rw [srLoopE_err, srLoopE_none]

/-- Witness for C2 at the source default `chunk_size = 160` and the concrete
write sequence `[[1, 2, 3]]`. -/
theorem audio_chunker_roundtrip_witness :
    (0 : Nat) < 160 ∧
    ((∀ g ∈ (run_add_audio ⟨160, []⟩ [[1, 2, 3]]).1, g.length = 160) ∧
     ((run_add_audio ⟨160, []⟩ [[1, 2, 3]]).1.flatten
        <+: (([[1, 2, 3]] : List (List Nat))).flatten) ∧
     (∃ k, (run_add_audio ⟨160, []⟩ [[1, 2, 3]]).1.flatten
             ++ ((run_add_audio ⟨160, []⟩ [[1, 2, 3]]).2.get_remaining).1
           = (([[1, 2, 3]] : List (List Nat))).flatten ++ List.replicate k 0) ∧
     (((run_add_audio ⟨160, []⟩ [[1, 2, 3]]).2.get_remaining).1 = [] ∨
      ((run_add_audio ⟨160, []⟩ [[1, 2, 3]]).2.get_remaining).1.length = 160)) :=
  ⟨by decide, audio_chunker_roundtrip 160 (by decide) [[1, 2, 3]]⟩

/-! # Response-pipeline lemmas -/

theorem string_join_append (l1 l2 : List String) :
    String.join (l1 ++ l2) = String.join l1 ++ String.join l2 := by
  apply String.ext
  simp [String.join_eq, String.data_append]

theorem string_join_singleton (s : String) : String.join [s] = s := by
  apply String.ext
  simp [String.join_eq]

theorem pyStrip_ne_empty (s : String) (c : Char) (hc : c ∈ s.data)
    (hns : isSpaceCh c = false) : pyStrip s ≠ "" := by
  intro h
  have hdata : ((s.data.dropWhile isSpaceCh).reverse.dropWhile isSpaceCh).reverse
      = ("" : String).data := congrArg String.data h
  rw [List.reverse_eq_nil_iff, List.dropWhile_eq_nil_iff] at hdata
  have h2 : ∀ x ∈ s.data.dropWhile isSpaceCh, isSpaceCh x := by
    intro x hx
    exact hdata x (List.mem_reverse.mpr hx)
  have h3 : isSpaceCh c = true := by
    rw [← List.takeWhile_append_dropWhile (p := isSpaceCh) (l := s.data)] at hc
    rcases List.mem_append.mp hc with hx | hx
    · exact List.mem_takeWhile_imp hx
    · exact h2 c hx
  rw [h3] at hns
  cases hns

theorem get_complete_sentences_some (b : List String) (r : List String × List String)
    (h : get_complete_sentences b = some r) : r = ([], b) := by
  simp only [get_complete_sentences] at h
  by_cases hp : (sentence_split (String.join b).data).1.length > 1
  · rw [if_pos hp] at h
    cases h
  · rw [if_neg hp] at h
    injection h with h'
    exact h'.symm

theorem pipeChunks_spec :
    ∀ (chunks : List String) (buf : List String),
      (pipeChunks buf chunks).1 = [] ∧
      ((pipeChunks buf chunks).2.2 = false → (pipeChunks buf chunks).2.1 = buf ++ chunks) := by
  intro chunks
  induction chunks with
  | nil =>
    intro buf
    exact ⟨rfl, fun _ => by simp [pipeChunks]⟩
  | cons c cs ih =>
    intro buf
    simp only [pipeChunks]
    cases hg : get_complete_sentences (add_chunk buf c) with
    | none => exact ⟨rfl, fun hh => by simp at hh⟩
    | some r =>
      have hr : r = ([], add_chunk buf c) := get_complete_sentences_some _ _ hg
      subst hr
      obtain ⟨i1, i2⟩ := ih (add_chunk buf c)
      refine ⟨by simpa using i1, ?_⟩
      intro hh
      have hh' : (pipeChunks (add_chunk buf c) cs).2.2 = false := by simpa using hh
      have h4 := i2 hh'
      simpa [add_chunk] using h4

/-! # Teardown lemmas -/

theorem removeA_eq_self_of_lookup_none {α β : Type} [DecidableEq α] (m : List (α × β)) (k : α)
    (h : lookupA m k = none) : removeA m k = m := by
  induction m with
  | nil => rfl
  | cons p rest ih =>
    obtain ⟨k', v'⟩ := p
    by_cases hk : k' = k
    · subst hk; simp [lookupA] at h
    · have h' : lookupA rest k = none := by simpa [lookupA, hk] using h
      rw [removeA_cons_ne v' rest hk, ih h']

theorem delGuard_eq {α β : Type} [DecidableEq α] (m : List (α × β)) (k : α) :
    delGuard m k = some (removeA m k) := by
  unfold delGuard delStrict
  by_cases h : (lookupA m k).isSome
  · simp [h]
  · simp only [if_neg h]
    rw [removeA_eq_self_of_lookup_none m k (Option.not_isSome_iff_eq_none.mp h)]

theorem cleanup_connection_eq (cid : Nat) (st : AgentState) :
    cleanup_connection cid st = some (cleanupF cid st) := by
  unfold cleanup_connection cleanupF
  cases hap : lookupA st.audio_processors cid with
  | some p =>
    cases hcn : lookupA st.caller_numbers cid with
    | some caller =>
      by_cases hc : caller ≠ ""
      · by_cases hv : (lookupA st.conversations caller).isSome
        · simp [delStrict, lookupA_updateA_self, delGuard_eq, hc, hv, clear_conversation,
            Option.bind]
        · simp [delStrict, lookupA_updateA_self, delGuard_eq, hc, hv, clear_conversation,
            Option.bind]
      · simp [delStrict, lookupA_updateA_self, delGuard_eq, hc, clear_conversation, Option.bind]
    | none =>
      simp [delStrict, lookupA_updateA_self, delGuard_eq, clear_conversation, Option.bind]
  | none =>
    cases hcn : lookupA st.caller_numbers cid with
    | some caller =>
      by_cases hc : caller ≠ ""
      · by_cases hv : (lookupA st.conversations caller).isSome
        · simp [delStrict, delGuard_eq, hc, hv, clear_conversation, Option.bind]
        · simp [delStrict, delGuard_eq, hc, hv, clear_conversation, Option.bind]
      · simp [delStrict, delGuard_eq, hc, clear_conversation, Option.bind]
    | none =>
      simp [delStrict, delGuard_eq, clear_conversation, Option.bind]

theorem cleanupF_idem (cid : Nat) (st : AgentState) :
    cleanupF cid (cleanupF cid st) = cleanupF cid st := by
  unfold cleanupF
  cases hap : lookupA st.audio_processors cid with
  | some p => simp [hap, lookupA_removeA_self, removeA_removeA]
  | none => simp [hap, lookupA_removeA_self, removeA_removeA]

theorem cleanupN_fixed (cid : Nat) (st : AgentState) :
    ∀ n, cleanupN cid n (cleanupF cid st) = some (cleanupF cid st) := by
  intro n
  induction n with
  | zero => rfl
  | succ n ih =>
    simp only [cleanupN, cleanup_connection_eq, Option.some_bind, cleanupF_idem]
    exact ih

/-! # Claim C7: idempotent teardown -/

/-- **C7**: running `cleanup_connection` `n + 1` times in sequence gives the
same result as running it once, no invocation raises (the result is always
`some`), every per-connection registry entry for `cid` is removed by one
invocation, and the recorded caller's history is cleared (when the
recorded caller id is truthy). -/
theorem cleanup_idempotent (st : AgentState) (cid : Nat) (n : Nat) (c : String) :
    cleanupN cid (n + 1) st = cleanup_connection cid st ∧
    (cleanup_connection cid st).isSome ∧
    lookupA (cleanupF cid st).connections cid = none ∧
    lookupA (cleanupF cid st).audio_buffers cid = none ∧
    lookupA (cleanupF cid st).stream_sids cid = none ∧
    lookupA (cleanupF cid st).call_sids cid = none ∧
    lookupA (cleanupF cid st).caller_numbers cid = none ∧
    lookupA (cleanupF cid st).audio_processors cid = none ∧
    lookupA (cleanupF cid st).output_managers cid = none ∧
    lookupA (cleanupF cid st).audio_chunkers cid = none ∧
    lookupA (cleanupF cid st).response_buffers cid = none ∧
    lookupA (cleanupF cid st).is_speaking cid = none ∧
    lookupA (cleanupF cid st).last_transcript cid = none ∧
    (lookupA st.caller_numbers cid = some c → c ≠ "" →
      lookupA (cleanupF cid st).conversations c = none) := by
  refine ⟨?_, ?_, ?_, ?_, ?_, ?_, ?_, ?_, ?_, ?_, ?_, ?_, ?_, ?_⟩
  · simp only [cleanupN, cleanup_connection_eq, Option.some_bind]
    exact cleanupN_fixed cid st n
  · simp [cleanup_connection_eq]
  · exact lookupA_removeA_self _ _
  · exact lookupA_removeA_self _ _
  · exact lookupA_removeA_self _ _
  · exact lookupA_removeA_self _ _
  · exact lookupA_removeA_self _ _
  · show lookupA (cleanupF cid st).audio_processors cid = none
    unfold cleanupF
    cases hap : lookupA st.audio_processors cid with
    | some p => simp [lookupA_removeA_self]
    | none => simpa using hap
  · exact lookupA_removeA_self _ _
  · exact lookupA_removeA_self _ _
  · exact lookupA_removeA_self _ _
  · exact lookupA_removeA_self _ _
  · exact lookupA_removeA_self _ _
  · intro h1 h2
    show lookupA (cleanupF cid st).conversations c = none
    unfold cleanupF
    simp only [h1, if_pos h2]
    unfold clear_conversation
    by_cases hv : (lookupA st.conversations c).isSome
    · simp [hv, lookupA_removeA_self]
    · simp only [if_neg hv]
      exact Option.not_isSome_iff_eq_none.mp hv

/-- Witness for C7 at the concrete `sampleState`, connection 1, `n = 1`,
caller "A". -/
theorem cleanup_idempotent_witness :
    cleanupN 1 (1 + 1) sampleState = cleanup_connection 1 sampleState ∧
    (cleanup_connection 1 sampleState).isSome ∧
    lookupA (cleanupF 1 sampleState).connections 1 = none ∧
    lookupA (cleanupF 1 sampleState).audio_buffers 1 = none ∧
    lookupA (cleanupF 1 sampleState).stream_sids 1 = none ∧
    lookupA (cleanupF 1 sampleState).call_sids 1 = none ∧
    lookupA (cleanupF 1 sampleState).caller_numbers 1 = none ∧
    lookupA (cleanupF 1 sampleState).audio_processors 1 = none ∧
    lookupA (cleanupF 1 sampleState).output_managers 1 = none ∧
    lookupA (cleanupF 1 sampleState).audio_chunkers 1 = none ∧
    lookupA (cleanupF 1 sampleState).response_buffers 1 = none ∧
    lookupA (cleanupF 1 sampleState).is_speaking 1 = none ∧
    lookupA (cleanupF 1 sampleState).last_transcript 1 = none ∧
    (lookupA sampleState.caller_numbers 1 = some "A" → "A" ≠ "" →
      lookupA (cleanupF 1 sampleState).conversations "A" = none) :=
  cleanup_idempotent sampleState 1 1 "A"

/-! # Claim C8: conditional per-caller history clearing on teardown -/

/-- **C8** (counterexample): connections 1 and 2 are both live and share
the caller identity "A", yet tearing down connection 1 removes caller A's
conversation history — the code clears unconditionally, never checking
whether another live session shares the identity, contradicting the
claimed "only if no other live session shares it". -/
theorem history_cleared_despite_shared_caller :
    cleanup_connection 1 sampleState = some (cleanupF 1 sampleState) ∧
    lookupA sampleState.caller_numbers 2 = some "A" ∧
    lookupA (cleanupF 1 sampleState).connections 2 = some "conn2" ∧
    lookupA (cleanupF 1 sampleState).caller_numbers 2 = some "A" ∧
    lookupA sampleState.conversations "A" = some [⟨"user", "hi"⟩] ∧
    lookupA (cleanupF 1 sampleState).conversations "A" = none := by
  decide

/-- **C8** (amended): when a session is destroyed, the conversation history
for its recorded caller identity is cleared unconditionally — even if
another live session shares that identity — provided the recorded caller
id is non-empty; the histories of all other caller identities are left
unchanged. -/
theorem teardown_clears_callers_history (st : AgentState) (cid : Nat) (c c2 : String)
    (h1 : lookupA st.caller_numbers cid = some c) (h2 : c ≠ "") (h3 : c2 ≠ c) :
    cleanup_connection cid st = some (cleanupF cid st) ∧
    lookupA (cleanupF cid st).conversations c = none ∧
    lookupA (cleanupF cid st).conversations c2 = lookupA st.conversations c2 := by
  refine ⟨cleanup_connection_eq cid st, ?_, ?_⟩
  · show lookupA (cleanupF cid st).conversations c = none
    unfold cleanupF
    simp only [h1, if_pos h2]
    unfold clear_conversation
    by_cases hv : (lookupA st.conversations c).isSome
    · simp [hv, lookupA_removeA_self]
    · simp only [if_neg hv]
      exact Option.not_isSome_iff_eq_none.mp hv
  · show lookupA (cleanupF cid st).conversations c2 = lookupA st.conversations c2
    unfold cleanupF
    simp only [h1, if_pos h2]
    unfold clear_conversation
    by_cases hv : (lookupA st.conversations c).isSome
    · simp [hv, lookupA_removeA_ne _ _ _ h3]
    · simp [hv]

/-- Witness for the amended C8 at `sampleState`: tearing down connection 1
(caller "A") clears A's history and leaves caller B's history intact. -/
theorem teardown_clears_callers_history_witness :
    cleanup_connection 1 sampleState = some (cleanupF 1 sampleState) ∧
    lookupA (cleanupF 1 sampleState).conversations "A" = none ∧
    lookupA (cleanupF 1 sampleState).conversations "B" = lookupA sampleState.conversations "B" :=
  teardown_clears_callers_history sampleState 1 "A" "B" (by decide) (by decide) (by decide)

example : lookupA [(1, "a"), (2, "b")] 2 = some "b" := by decide

/-! # Claim C5: final-transcript handling -/

/-- **C5**: a recognition result causes no state change and no action unless
it is final and non-blank after stripping; a final, non-blank transcript
(with the session still registered and its response buffer present) stores
the transcript in `last_transcript` and produces a trace that first clears
the pending-response buffer and then begins generation with that
transcript and the caller identity. -/
theorem final_transcript_gating (st : AgentState) (cid : Nat) (res : RecogResult)
    (produced : List String) (apiErr : Bool) :
    (¬(res.is_final = true ∧ pyStrip res.transcript ≠ "") →
      handle_transcript st cid res produced apiErr = some (st, [])) ∧
    (res.is_final = true → pyStrip res.transcript ≠ "" →
      (lookupA st.connections cid).isSome → (lookupA st.response_buffers cid).isSome →
      (handle_transcript st cid res produced apiErr).map
          (fun r => (lookupA r.1.last_transcript cid, r.2.take 2))
        = some (some res.transcript,
            [AiAction.cleared,
             AiAction.genCall res.transcript ((lookupA st.caller_numbers cid).getD "unknown")])) := by
  constructor
  · intro h
    simp only [handle_transcript, if_neg h]
  · intro h1 h2 h3 h4
    have hcond : res.is_final ∧ pyStrip res.transcript ≠ "" := ⟨h1, h2⟩
    simp only [handle_transcript, if_pos hcond, process_with_ai]
    cases hc : lookupA st.connections cid with
    | none => rw [hc] at h3; cases h3
    | some conn =>
      cases hb : lookupA st.response_buffers cid with
      | none => rw [hb] at h4; cases h4
      | some b =>
        simp only [hc, hb]
        by_cases hcrash :
            (pipeChunks []
              (produced ++ (if apiErr then [apology_generator] else []))).2.2
        · simp [hcrash, lookupA_updateA_self,
            (pipeChunks_spec (produced ++ (if apiErr then [apology_generator] else [])) []).1,
            apply_ite AgentState.last_transcript, ite_self]
        · simp [hcrash, lookupA_updateA_self,
            (pipeChunks_spec (produced ++ (if apiErr then [apology_generator] else [])) []).1,
            apply_ite AgentState.last_transcript, ite_self]

/-- Witness for C5 at `sampleState`, connection 1, a final transcript
"What is the weather". -/
theorem final_transcript_gating_witness :
    (¬((⟨"What is the weather", true, 9⟩ : RecogResult).is_final = true ∧
        pyStrip (⟨"What is the weather", true, 9⟩ : RecogResult).transcript ≠ "") →
      handle_transcript sampleState 1 ⟨"What is the weather", true, 9⟩ ["Hi"] false
        = some (sampleState, [])) ∧
    ((⟨"What is the weather", true, 9⟩ : RecogResult).is_final = true →
      pyStrip (⟨"What is the weather", true, 9⟩ : RecogResult).transcript ≠ "" →
      (lookupA sampleState.connections 1).isSome →
      (lookupA sampleState.response_buffers 1).isSome →
      (handle_transcript sampleState 1 ⟨"What is the weather", true, 9⟩ ["Hi"] false).map
          (fun r => (lookupA r.1.last_transcript 1, r.2.take 2))
        = some (some (⟨"What is the weather", true, 9⟩ : RecogResult).transcript,
            [AiAction.cleared,
             AiAction.genCall (⟨"What is the weather", true, 9⟩ : RecogResult).transcript
               ((lookupA sampleState.caller_numbers 1).getD "unknown")])) :=
  final_transcript_gating sampleState 1 ⟨"What is the weather", true, 9⟩ ["Hi"] false

/-! # Claim C6: generator failure degrades to a fixed apology -/

/-- **C6**: when the generation call raises (`apiErr = true`), the response
pipeline completes without an escaping exception and synthesizes exactly
one utterance, which is either the pipeline's fixed apology sentence or
the chunks received so far followed by the generator's fixed apology
sentence — the error itself never reaches the transport. -/
theorem generator_failure_degrades_to_apology (st : AgentState) (cid : Nat) (t : String)
    (produced : List String)
    (h1 : (lookupA st.connections cid).isSome)
    (h2 : (lookupA st.response_buffers cid).isSome) :
    (process_with_ai st cid t produced true).isSome ∧
    ((process_with_ai st cid t produced true).map (fun r => synthTexts r.2)
        = some [apology_pipeline] ∨
     (process_with_ai st cid t produced true).map (fun r => synthTexts r.2)
        = some [String.join produced ++ apology_generator]) := by
  simp only [process_with_ai]
  cases hc : lookupA st.connections cid with
  | none => rw [hc] at h1; cases h1
  | some conn =>
    cases hb : lookupA st.response_buffers cid with
    | none => rw [hb] at h2; cases h2
    | some b =>
      have hjoin : String.join (produced ++ [apology_generator])
          = String.join produced ++ apology_generator := by
        rw [string_join_append, string_join_singleton]
      by_cases hcrash : (pipeChunks [] (produced ++ [apology_generator])).2.2
      · refine ⟨by simp [hcrash], Or.inl ?_⟩
        simp [hcrash, synthTexts, (pipeChunks_spec (produced ++ [apology_generator]) []).1]
      · have hbuf : (pipeChunks [] (produced ++ [apology_generator])).2.1
            = produced ++ [apology_generator] := by
          simpa using
            (pipeChunks_spec (produced ++ [apology_generator]) []).2
              (Bool.not_eq_true _ ▸ hcrash)
        have hne : pyStrip (String.join produced ++ apology_generator) ≠ "" := by
          apply pyStrip_ne_empty _ '.'
          · rw [String.data_append]
            apply List.mem_append.mpr
            right
            decide
          · decide
        refine ⟨by simp [hcrash, hbuf, hjoin, hne], Or.inr ?_⟩
        simp [hcrash, hne, synthTexts,
          (pipeChunks_spec (produced ++ [apology_generator]) []).1, hbuf, hjoin]

/-- Witness for C6 at `sampleState`, connection 1, transcript "hello",
one chunk "Hi" produced before the generator fails. -/
theorem generator_failure_degrades_to_apology_witness :
    (process_with_ai sampleState 1 "hello" ["Hi"] true).isSome ∧
    ((process_with_ai sampleState 1 "hello" ["Hi"] true).map (fun r => synthTexts r.2)
        = some [apology_pipeline] ∨
     (process_with_ai sampleState 1 "hello" ["Hi"] true).map (fun r => synthTexts r.2)
        = some [String.join ["Hi"] ++ apology_generator]) :=
  generator_failure_degrades_to_apology sampleState 1 "hello" ["Hi"] (by decide) (by decide)

/-! # Barge-in and speaking-flag lemmas -/

theorem pushAudioQueue_is_speaking (st : AgentState) (cid : Nat) (pcm : List Int) :
    (pushAudioQueue st cid pcm).is_speaking = st.is_speaking := by
  unfold pushAudioQueue
  cases lookupA st.audio_processors cid <;> rfl

theorem pushAudioQueue_output_managers (st : AgentState) (cid : Nat) (pcm : List Int) :
    (pushAudioQueue st cid pcm).output_managers = st.output_managers := by
  unfold pushAudioQueue
  cases lookupA st.audio_processors cid <;> rfl

theorem handle_media_preserves_not_speaking (st : AgentState) (cid : Nat)
    (pl : Option (List Int)) (h : lookupD st.is_speaking cid = false) :
    lookupD (handle_media st cid pl).1.is_speaking cid = false := by
  unfold handle_media
  cases pl with
  | none => exact h
  | some pcm =>
    by_cases he : pcm.isEmpty
    · simp [he, h]
    · by_cases hap : (lookupA st.audio_processors cid).isSome
      · have h' : (lookupA st.is_speaking cid).getD false = false := h
        simp [he, hap, h', lookupD, pushAudioQueue_is_speaking]
      · simp [he, hap, h]

theorem synth_loop_stopped (cid : Nat) (sid : String) (st : AgentState) (ch : AudioChunker)
    (as : List (List Nat)) (evts : List (Option (List Int))) (raiseAt : Option Nat)
    (h : lookupD st.is_speaking cid = false) :
    (synth_loop cid sid st ch as evts raiseAt).msgs = [] ∧
    (synth_loop cid sid st ch as evts raiseAt).raised = false := by
  cases as with
  | nil => exact ⟨rfl, rfl⟩
  | cons a as' =>
    have h1 : lookupD (match evts.head? with
        | some (some pcm) => (handle_media st cid (some pcm)).1
        | _ => st).is_speaking cid = false := by
      cases hev : evts.head? with
      | none => simpa [hev] using h
      | some o =>
        cases o with
        | none => simpa [hev] using h
        | some pcm =>
          simpa [hev] using handle_media_preserves_not_speaking st cid (some pcm) h
    simp only [synth_loop]
    rw [if_pos h1]
    exact ⟨rfl, rfl⟩

theorem flush_remaining_le_one (sid : String) (ch : AudioChunker) :
    (flush_remaining sid ch).1.length ≤ 1 := by
  unfold flush_remaining
  by_cases hE : ch.get_remaining.1.isEmpty <;> simp [hE]

/-! # Claim C3: barge-in -/

/-- **C3** (counterexample): in `sampleState` connection 1 is Speaking and a
media event with RMS 600 > 500 arrives; the handler interrupts and
transitions to Listening, but the list of messages it sends to the
transport is empty — no `{event: "clear", streamSid}` message is ever
emitted, contrary to the claim. -/
theorem no_clear_message_on_barge_in :
    lookupD sampleState.is_speaking 1 = true ∧
    500 < audioop_rms (List.replicate 4 (600 : Int)) ∧
    (handle_media sampleState 1 (some (List.replicate 4 (600 : Int)))).2.1 = [] ∧
    OutMsg.clear "SID1" ∉ (handle_media sampleState 1 (some (List.replicate 4 (600 : Int)))).2.1 ∧
    lookupD (handle_media sampleState 1 (some (List.replicate 4 (600 : Int)))).1.is_speaking 1
      = false := by
  decide

/-- **C3** (amended): a media event with RMS energy above 500 processed while
Speaking raises nothing, emits **no** transport message (in particular no
`clear`), interrupts the output manager (`is_playing := false`) and
transitions the session to Listening; from that state the synthesis send
loop emits no further frames for the in-flight fragment (the very next
frame check breaks), and at most one final flush frame of previously
buffered audio can still follow. -/
theorem barge_in_interrupts (st : AgentState) (cid : Nat) (pcm : List Int) (sid : String)
    (ch : AudioChunker) (as : List (List Nat)) (evts : List (Option (List Int)))
    (raiseAt : Option Nat)
    (h1 : lookupD st.is_speaking cid = true)
    (h2 : 500 < audioop_rms pcm)
    (h3 : pcm ≠ [])
    (h4 : (lookupA st.audio_processors cid).isSome)
    (h5 : (lookupA st.output_managers cid).isSome) :
    (handle_media st cid (some pcm)).2.1 = [] ∧
    (handle_media st cid (some pcm)).2.2 = false ∧
    lookupD (handle_media st cid (some pcm)).1.is_speaking cid = false ∧
    lookupA (handle_media st cid (some pcm)).1.output_managers cid = some false ∧
    (synth_loop cid sid (handle_media st cid (some pcm)).1 ch as evts raiseAt).msgs = [] ∧
    (flush_remaining sid ch).1.length ≤ 1 := by
  have he : pcm.isEmpty = false := by
    cases pcm with
    | nil => exact absurd rfl h3
    | cons x xs => rfl
  obtain ⟨om, ho⟩ := Option.isSome_iff_exists.mp h5
  have hmain : handle_media st cid (some pcm)
      = (pushAudioQueue
          { st with output_managers := updateA st.output_managers cid false,
                    is_speaking := updateA st.is_speaking cid false } cid pcm, [], false) := by
    unfold handle_media
    simp [he, h4, h1, h2, ho]
  have hspk : lookupD (handle_media st cid (some pcm)).1.is_speaking cid = false := by
    rw [hmain]
    simp [lookupD, pushAudioQueue_is_speaking, lookupA_updateA_self]
  refine ⟨by rw [hmain], by rw [hmain], hspk, ?_, ?_, flush_remaining_le_one sid ch⟩
  · rw [hmain]
    show lookupA (pushAudioQueue _ cid pcm).output_managers cid = some false
    rw [pushAudioQueue_output_managers]
    exact lookupA_updateA_self _ _ _
  · exact (synth_loop_stopped cid sid _ ch as evts raiseAt hspk).1

/-- Witness for the amended C3 at `sampleState`, connection 1, loud PCM of
four samples at amplitude 600. -/
theorem barge_in_interrupts_witness :
    (handle_media sampleState 1 (some (List.replicate 4 (600 : Int)))).2.1 = [] ∧
    (handle_media sampleState 1 (some (List.replicate 4 (600 : Int)))).2.2 = false ∧
    lookupD (handle_media sampleState 1 (some (List.replicate 4 (600 : Int)))).1.is_speaking 1
      = false ∧
    lookupA (handle_media sampleState 1 (some (List.replicate 4 (600 : Int)))).1.output_managers 1
      = some false ∧
    (synth_loop 1 "SID1" (handle_media sampleState 1 (some (List.replicate 4 (600 : Int)))).1
        ⟨160, []⟩ [[1, 2]] [] none).msgs = [] ∧
    (flush_remaining "SID1" (⟨160, []⟩ : AudioChunker)).1.length ≤ 1 :=
  barge_in_interrupts sampleState 1 (List.replicate 4 (600 : Int)) "SID1" ⟨160, []⟩
    [[1, 2]] [] none (by decide) (by decide) (by decide) (by decide) (by decide)

/-! # Claim C10: speaking-flag reset invariant -/

/-- **C10** (counterexample): invoking `synthesize_and_send` for a
connection that is no longer in the registry returns immediately without
touching the speaking flag — in `orphanState` the flag for connection 1
is still `true` on exit, so not every invocation leaves it `false`. -/
theorem speaking_flag_not_reset_on_early_return :
    lookupA orphanState.connections 1 = none ∧
    (synthesize_and_send 1 orphanState "hi" [] [] none).map
        (fun r => lookupD r.1.is_speaking 1) = some true := by
  decide

/-- **C10** (amended): every invocation of `synthesize_and_send` whose
pre-`try` registry lookups succeed (connection registered, stream sid,
output manager and chunker present) leaves the connection's speaking flag
`false` on exit — whether the loop completes, is interrupted by scheduled
media events, or raises at any iteration — because the `finally` block
always clears it; an invocation on an unregistered connection returns
early with the flag untouched. -/
theorem speaking_flag_reset (st : AgentState) (cid : Nat) (text : String)
    (audio : List (List Nat)) (evts : List (Option (List Int))) (raiseAt : Option Nat)
    (h1 : (lookupA st.connections cid).isSome)
    (h2 : (lookupA st.stream_sids cid).isSome)
    (h3 : (lookupA st.output_managers cid).isSome)
    (h4 : (lookupA st.audio_chunkers cid).isSome) :
    (synthesize_and_send cid st text audio evts raiseAt).map
        (fun r => lookupD r.1.is_speaking cid) = some false := by
  obtain ⟨conn, hc⟩ := Option.isSome_iff_exists.mp h1
  obtain ⟨sid, hs⟩ := Option.isSome_iff_exists.mp h2
  obtain ⟨om, ho⟩ := Option.isSome_iff_exists.mp h3
  obtain ⟨ch, hch⟩ := Option.isSome_iff_exists.mp h4
  unfold synthesize_and_send
  simp only [hc, hs, ho, hch]
  by_cases hr : (synth_loop cid sid
      { st with is_speaking := updateA st.is_speaking cid true } ch audio evts raiseAt).raised
  · simp [hr, finishSend, lookupD, lookupA_updateA_self]
  · simp [hr, finishSend, lookupD, lookupA_updateA_self]

/-- Witness for the amended C10 at `sampleState`, connection 1, one audio
chunk, one scheduled (empty) event. -/
theorem speaking_flag_reset_witness :
    (synthesize_and_send 1 sampleState "x" [[5]] [none] none).map
        (fun r => lookupD r.1.is_speaking 1) = some false :=
  speaking_flag_reset sampleState 1 "x" [[5]] [none] none
    (by decide) (by decide) (by decide) (by decide)
